import Mathlib

/-!
Shallow embedding of the AI-Powered Worker Assignment MCP server
(`AIWorkerAssignmentMCP`): intent classification, context extraction,
per-intent reasoning, the prediction-enhancement layer and the learning
buffer.  Machine numbers are `Nat`, JS floating-point quantities are
modelled as `ℚ`, JS strings as `String`, JS `Map`s as insertion-ordered
association lists.  The nearest-neighbour prediction core
(`predictWorkerML`) lives outside the embedded class and is passed in as
a function argument where the code calls it.
-/

namespace AIWorkerAssignmentMCP

/-- ASCII-faithful model of `query.toLowerCase()` : lower-case every
character (kernel-reducible, unlike `String.toLower`). -/
def strLower (s : String) : String :=
  ⟨s.data.map Char.toLower⟩

/-- Split at every character satisfying `p`, keeping (possibly empty)
chunks, as `String.split` does; models the JS `split(/\s+/)` tokenization
up to empty tokens, which the caller discards anyway. -/
def splitOnPred (p : Char → Bool) : List Char → List String
  | [] => [""]
  | c :: rest =>
    if p c then "" :: splitOnPred p rest
    else
      match splitOnPred p rest with
      | [] => [String.mk [c]]
      | w :: ws => String.mk (c :: w.data) :: ws

/-- `dropThrough pat s` : if `pat` occurs as a contiguous sublist of `s`,
the remainder of `s` after the first occurrence; otherwise `none`.
Used to model one `.*` step of the server's regular expressions. -/
def dropThrough (pat : List Char) : List Char → Option (List Char)
  | [] => if pat.isEmpty then some [] else none
  | c :: cs =>
    if pat.isPrefixOf (c :: cs) then some ((c :: cs).drop pat.length)
    else dropThrough pat cs

/-- `seqMatchL segs s` models a JS regex of the form `/a.*b.*c/` (the only
shape the server uses): each segment occurs, in order, without overlap. -/
def seqMatchL : List (List Char) → List Char → Bool
  | [], _ => true
  | p :: ps, s =>
    match dropThrough p s with
    | some rest => seqMatchL ps rest
    | none => false

/-- Case-insensitive test of a `/a.*b.*c/i` pattern against a string,
as `pattern.test(query)` does in the source. -/
def seqMatch (segs : List String) (s : String) : Bool :=
  seqMatchL (segs.map (fun t => (strLower t).toList)) (strLower s).toList

/-- Model of JS `String.prototype.includes` (case-sensitive). -/
def strIncludes (s sub : String) : Bool :=
  (seqMatchL [sub.toList] s.toList)

/-- Result of the external `mlSystem.predictWorkerML` call, as consumed by
the enhancement layer. -/
structure Prediction where
  recommendedWorker : String
  estimatedTime : ℚ
  confidence : ℚ
  avgQuality : ℚ
  deriving Repr, DecidableEq

/-- `reasoning.parameters` of the `assignment` strategy. -/
structure Params where
  machineId : ℕ
  complexity : ℕ
  deriving Repr, DecidableEq

/-- A reasoning result, as produced by the `reasonAbout*` strategies. -/
structure Reasoning where
  approach : String
  confidence : ℚ
  explanation : String
  suggestions : List String
  action_plan : List String
  parameters : Option Params
  deriving Repr, DecidableEq

/-- `riskAssessment` of an enhanced prediction. -/
structure RiskAssessment where
  level : String
  factors : List String
  deriving Repr, DecidableEq

/-- `assessRisk(prediction, reasoning)` : collect risk strings and derive
the level from their count. -/
def assessRisk (prediction : Prediction) (reasoning : Reasoning) :
    RiskAssessment :=
  let risks : List String :=
    (if prediction.confidence < 0.7 then
      ["Low prediction confidence - consider gathering more data"] else []) ++
    (if prediction.estimatedTime > 30 then
      ["Extended completion time - monitor progress closely"] else []) ++
    (if strIncludes reasoning.explanation "urgent" ∧
        prediction.estimatedTime > 20 then
      ["Time constraint risk - consider alternative workers"] else [])
  { level :=
      if risks.length = 0 then "low"
      else if risks.length = 1 then "medium" else "high",
    factors := risks }

/-- `calculateContextualScore(prediction, reasoning)`. -/
def calculateContextualScore (prediction : Prediction)
    (reasoning : Reasoning) : ℚ :=
  let score := prediction.confidence * 100
  let score := score * reasoning.confidence
  let score :=
    if strIncludes reasoning.explanation "urgent" ∧
        prediction.estimatedTime < 20 then score + 10 else score
  let score :=
    if strIncludes reasoning.explanation "quality" ∧
        prediction.avgQuality > 85 then score + 15 else score
  min 100 score

/-- One entry of `alternative_workers`. -/
structure Alternative where
  worker : String
  complexity_adjusted : ℕ
  estimated_time : ℚ
  reason : String
  deriving Repr, DecidableEq

/-- One iteration of `generateAlternatives`' loop body over complexity
level `i`. -/
def altStep (predictWorkerML : ℕ → ℕ → Prediction)
    (basePrediction : Prediction) (machineId complexity : ℕ)
    (acc : List Alternative) (i : ℕ) : List Alternative :=
  if i ≠ complexity then
    let altPrediction := predictWorkerML machineId i
    if altPrediction.recommendedWorker ≠
        basePrediction.recommendedWorker then
      acc ++ [{ worker := altPrediction.recommendedWorker,
                complexity_adjusted := i,
                estimated_time := altPrediction.estimatedTime,
                reason :=
                  if i < complexity then "Faster but less thorough"
                  else "More thorough but slower" }]
    else acc
  else acc

/-- `generateAlternatives(basePrediction, reasoning)` : probe the other
complexity levels 1..5 with the external predictor, keep predictions whose
worker differs from the primary, annotate, cap at two. -/
def generateAlternatives (predictWorkerML : ℕ → ℕ → Prediction)
    (basePrediction : Prediction) (machineId complexity : ℕ) :
    List Alternative :=
  let alternatives :=
    (List.range' 1 5).foldl
      (altStep predictWorkerML basePrediction machineId complexity) []
  alternatives.take 2

/-- One candidate intent: `{type, confidence, matched_pattern}`. -/
structure IntentCand where
  type : String
  confidence : ℚ
  matched_pattern : String
  deriving Repr, DecidableEq

/-- `analyzeIntent`'s result `{primary, secondary, analysis}`. -/
structure IntentResult where
  primary : IntentCand
  secondary : List IntentCand
  analysis : String
  deriving Repr, DecidableEq

/-- `initializeIntentPatterns()` : the fixed intent pattern table, each JS
regex `/a.*b/i` rendered as its list of literal segments, in source order. -/
def intentPatterns : List (String × List (List String)) :=
  [("assignment",
    [["who", "should", "work"], ["best", "worker"], ["recommend", "worker"],
     ["assign", "worker"], ["optimal", "assignment"], ["who", "can", "handle"],
     ["need", "someone", "for"], ["looking", "for", "worker"]]),
   ("performance",
    [["how", "performing"], ["worker", "performance"], ["efficiency"],
     ["quality", "score"], ["speed", "comparison"], ["track", "record"],
     ["evaluate", "worker"], ["analyze", "performance"]]),
   ("urgency",
    [["urgent"], ["rush"], ["asap"], ["immediately"], ["critical"],
     ["deadline"], ["priority"], ["emergency"], ["quick"]]),
   ("quality",
    [["precision"], ["accurate"], ["careful"], ["detailed"],
     ["high", "quality"], ["perfect"], ["exact"], ["flawless"]]),
   ("learning",
    [["learn", "from"], ["improve"], ["feedback"], ["train", "model"],
     ["update", "data"], ["better", "prediction"], ["enhance"]]),
   ("analytics",
    [["status"], ["overview"], ["analytics"], ["performance", "metrics"],
     ["system", "health"], ["statistics"], ["summary"]])]

/-- The JS `pattern.toString()` of a segment pattern, e.g.
`/who.*should.*work/i`. -/
def patternToString (segs : List String) : String :=
  "/" ++ String.intercalate ".*" segs ++ "/i"

/-- Stable descending insertion by confidence: the position an element gets
from JS's stable `sort((a, b) => b.confidence - a.confidence)`. -/
def insertDesc (x : IntentCand) : List IntentCand → List IntentCand
  | [] => [x]
  | y :: ys =>
    if x.confidence > y.confidence then x :: y :: ys else y :: insertDesc x ys

/-- Stable sort, descending by confidence. -/
def sortDesc (l : List IntentCand) : List IntentCand :=
  l.foldl (fun acc x => insertDesc x acc) []

/-- The pattern-matching pass of `analyzeIntent(query)` : every
`(intentType, pattern)` pair whose pattern tests true on the lowercased
query, in table order. -/
def detectIntents (query : String) : List (String × List String) :=
  let lowerQuery := strLower query
  intentPatterns.foldl
    (fun acc tp =>
      tp.2.foldl
        (fun acc pat =>
          if seqMatch pat lowerQuery then acc ++ [(tp.1, pat)] else acc)
        acc) []

/-- `analyzeIntent(query)`.  The source draws `Math.random()` once per
matched pattern (`0.8 + Math.random() * 0.2`); the random stream is made
explicit as `rnd : ℕ → ℚ`, consumed in match order. -/
def analyzeIntent (rnd : ℕ → ℚ) (query : String) : IntentResult :=
  let matched := detectIntents query
  let detectedIntents : List IntentCand :=
    matched.enum.map (fun ip =>
      { type := ip.2.1, confidence := 0.8 + rnd ip.1 * 0.2,
        matched_pattern := patternToString ip.2.2 })
  let detectedIntents :=
    if detectedIntents.isEmpty then
      [{ type := "general_inquiry", confidence := 0.6,
         matched_pattern := "fallback_analysis" }]
    else detectedIntents
  let sorted := sortDesc detectedIntents
  { primary := sorted.headD
      { type := "general_inquiry", confidence := 0.5,
        matched_pattern := "default" },
    secondary := (sorted.drop 1).take 2,
    analysis := "Detected " ++ toString detectedIntents.length ++
      " potential intent(s)" }

/-- A value stored under `context.environmental_factors[key]` : either a
bare string (the `'high'` set for urgency) or a `{factor, weight}` object
from the contextual-factor tables. -/
inductive EnvVal where
  | str (s : String)
  | fw (factor : String) (weight : ℚ)
  deriving Repr, DecidableEq

/-- `context.requirements`. -/
structure Requirements where
  machineId : Option ℕ
  complexity : Option String
  timeConstraint : Option String
  qualityFocus : Option String
  deriving Repr, DecidableEq

/-- The context object built by `extractContextFromQuery` (the
`query_analysis`/`constraints` maps stay empty and are omitted). -/
structure ExtractedContext where
  environmental_factors : List (String × EnvVal)
  requirements : Requirements
  deriving Repr, DecidableEq

/-- Insertion-ordered map update, as JS object property assignment:
overwrite in place when the key exists, append otherwise. -/
def envSet (m : List (String × EnvVal)) (k : String) (v : EnvVal) :
    List (String × EnvVal) :=
  match m with
  | [] => [(k, v)]
  | kv :: rest =>
    if kv.1 = k then (k, v) :: rest else kv :: envSet rest k v

/-- Key lookup in the environmental-factors map. -/
def envGet (m : List (String × EnvVal)) (k : String) : Option EnvVal :=
  (m.find? (fun kv => kv.1 = k)).map (·.2)

/-- `initializeContextualFactors()` : factor type, then
(pattern segments, weight, factor name) in source order. -/
def contextualFactors :
    List (String × List (List String × ℚ × String)) :=
  [("timeContext",
    [(["morning"], 1.2, "fresh_start"), (["afternoon"], 1.0, "steady_pace"),
     (["evening"], 0.9, "fatigue_consideration"),
     (["end", "of", "day"], 0.8, "rushing_risk")]),
   ("workloadContext",
    [(["heavy", "workload"], 0.8, "capacity_concern"),
     (["light", "load"], 1.2, "available_capacity"),
     (["busy"], 0.7, "limited_availability"),
     (["free"], 1.3, "full_availability")]),
   ("qualityContext",
    [(["prototype"], 1.5, "experimental_work"),
     (["production"], 1.3, "standard_quality"),
     (["customer", "facing"], 1.6, "high_stakes"),
     (["internal", "use"], 1.0, "standard_quality")])]

/-- Read a maximal run of decimal digits (at least one), as `\d+` with
`parseInt`. -/
def parseDigits (s : List Char) : Option ℕ :=
  let run := s.takeWhile Char.isDigit
  if run.isEmpty then none
  else some (run.foldl (fun n c => 10 * n + (c.toNat - 48)) 0)

/-- First match of `/machine\s*(\d+)/i` : scan for `machine`, optional
whitespace, then one or more digits; on a failed tail, resume the scan one
character later, as regex backtracking does. -/
def matchMachine : List Char → Option ℕ
  | [] => none
  | c :: cs =>
    if ("machine".toList).isPrefixOf (c :: cs) then
      let after := (c :: cs).drop 7
      match parseDigits (after.dropWhile Char.isWhitespace) with
      | some n => some n
      | none => matchMachine cs
    else matchMachine cs

/-- The fixed complexity keyword buckets, in evaluation order. -/
def complexityIndicators : List (String × List String) :=
  [("simple", ["simple", "easy", "basic", "straightforward"]),
   ("medium", ["medium", "standard", "normal", "regular"]),
   ("complex", ["complex", "difficult", "challenging", "advanced",
                "intricate"]),
   ("critical", ["critical", "precision", "perfect", "exact", "flawless"])]

/-- `extractContextFromQuery(query, providedContext)` with an empty
provided context (the merge `{...context, ...providedContext}` is then the
identity; every claim below supplies no context). -/
def extractContextFromQuery (query : String) : ExtractedContext :=
  let machineId := matchMachine (strLower query).toList
  let complexity :=
    (complexityIndicators.find? (fun li =>
      li.2.any (fun indicator => strIncludes (strLower query) indicator))).map
      (·.1)
  let urgent := strIncludes query "urgent" || strIncludes query "rush" ||
    strIncludes query "asap"
  let qualityFocused := strIncludes query "quality" ||
    strIncludes query "precision" || strIncludes query "careful"
  let env : List (String × EnvVal) :=
    if urgent then [("urgency", .str "high")] else []
  let env :=
    contextualFactors.foldl
      (fun env tf =>
        tf.2.foldl
          (fun env factor =>
            if seqMatch factor.1 query then
              envSet env tf.1 (.fw factor.2.2 factor.2.1)
            else env) env) env
  { environmental_factors := env,
    requirements :=
      { machineId := machineId, complexity := complexity,
        timeConstraint := if urgent then some "urgent" else none,
        qualityFocus := if qualityFocused then some "high" else none } }

/-- `mapComplexityToNumber(complexityString)` : keyword table with the JS
`mapping[s] || 3` fallback (`undefined`, a missing key, and a zero value
are all falsy). -/
def mapComplexityToNumber (complexityString : Option String) : ℕ :=
  let mapping : List (String × ℕ) :=
    [("simple", 1), ("easy", 1), ("basic", 1), ("medium", 3),
     ("standard", 3), ("normal", 3), ("complex", 4), ("difficult", 4),
     ("challenging", 4), ("critical", 5), ("precision", 5), ("perfect", 5)]
  match complexityString.bind
      (fun s => (mapping.find? (fun kv => kv.1 = s)).map (·.2)) with
  | some n => if n = 0 then 3 else n
  | none => 3

/-- Does `context.environmental_factors?.urgency === 'high'` hold? -/
def urgencyHigh (context : ExtractedContext) : Bool :=
  envGet context.environmental_factors "urgency" = some (.str "high")

/-- Does `context.requirements?.qualityFocus === 'high'` hold? -/
def qualityFocusHigh (context : ExtractedContext) : Bool :=
  context.requirements.qualityFocus = some "high"

/-- `intelligentMachineSelection(context)`. -/
def intelligentMachineSelection (context : ExtractedContext) : ℕ :=
  if qualityFocusHigh context then 1
  else if urgencyHigh context then 3
  else 2

/-- `intelligentComplexityAssessment(context)`. -/
def intelligentComplexityAssessment (context : ExtractedContext) : ℕ :=
  let complexity := 3
  let complexity := if urgencyHigh context then complexity + 1 else complexity
  let complexity :=
    if qualityFocusHigh context then complexity + 1 else complexity
  min 5 complexity

/-- JS truthiness of `context.requirements?.machineId` : absent or `0`. -/
def machineIdFalsy (o : Option ℕ) : Bool :=
  o.getD 0 = 0

/-- `reasonAboutAssignment(context)`. -/
def reasonAboutAssignment (context : ExtractedContext) : Reasoning :=
  let machineId0 := context.requirements.machineId
  let complexity := mapComplexityToNumber context.requirements.complexity
  let machineId :=
    if machineIdFalsy machineId0 then intelligentMachineSelection context
    else machineId0.getD 0
  let suggestions :=
    if machineIdFalsy machineId0 then
      ["Intelligently selected Machine " ++ toString machineId ++
       " based on context"]
    else []
  let complexity' :=
    if complexity = 0 then intelligentComplexityAssessment context
    else complexity
  let suggestions :=
    if complexity = 0 then
      suggestions ++ ["Assessed complexity as level " ++ toString complexity' ++
        " based on requirements"]
    else suggestions
  let explanation := "For this assignment, I'm considering Machine " ++
    toString machineId ++ " with complexity level " ++ toString complexity' ++
    ". "
  let confidence : ℚ := 0.85
  let explanation :=
    if urgencyHigh context then
      explanation ++
        "Given the urgent nature, I'll prioritize workers with fast completion times. "
    else explanation
  let confidence :=
    if urgencyHigh context then confidence + 0.1 else confidence
  let explanation :=
    if qualityFocusHigh context then
      explanation ++
        "With high quality requirements, I'll emphasize workers with excellent quality scores. "
    else explanation
  let confidence :=
    if qualityFocusHigh context then confidence + 0.1 else confidence
  { approach := "intelligent_worker_assignment",
    confidence := confidence,
    explanation := explanation,
    suggestions := suggestions,
    action_plan :=
      ["Analyze worker performance for Machine " ++ toString machineId,
       "Apply context-specific weighting for urgency and quality",
       "Select optimal worker with confidence scoring",
       "Provide detailed recommendation with reasoning"],
    parameters := some { machineId := machineId, complexity := complexity' } }

/-- `reasonAboutPerformance(context)`. -/
def reasonAboutPerformance : Reasoning :=
  { approach := "performance_analysis", confidence := 0.9,
    explanation :=
      "I'll analyze worker performance with contextual insights and comparative analysis.",
    suggestions := ["Include historical trends", "Compare with team averages",
      "Identify improvement opportunities"],
    action_plan := ["Gather comprehensive performance data",
      "Apply statistical analysis", "Generate actionable insights",
      "Provide improvement recommendations"],
    parameters := none }

/-- `reasonAboutAnalytics(context)`. -/
def reasonAboutAnalytics : Reasoning :=
  { approach := "comprehensive_analytics", confidence := 0.95,
    explanation :=
      "I'll provide comprehensive system analytics with predictive insights.",
    suggestions := ["Real-time metrics", "Trend analysis",
      "Predictive modeling", "Actionable recommendations"],
    action_plan := ["Collect current system metrics",
      "Analyze performance trends", "Generate predictive insights",
      "Provide strategic recommendations"],
    parameters := none }

/-- `reasonAboutLearning(context)`. -/
def reasonAboutLearning : Reasoning :=
  { approach := "adaptive_learning", confidence := 0.8,
    explanation :=
      "I'll help the system learn and improve from new data and feedback.",
    suggestions := ["Incremental learning", "Pattern recognition",
      "Model optimization"],
    action_plan := ["Analyze new data quality", "Update learning models",
      "Validate improvements", "Provide learning insights"],
    parameters := none }

/-- `reasonAboutGeneral(context)`. -/
def reasonAboutGeneral : Reasoning :=
  { approach := "general_assistance", confidence := 0.7,
    explanation :=
      "I'll provide helpful information and guidance based on available context.",
    suggestions := ["Clarify specific needs", "Explore available options",
      "Provide educational information"],
    action_plan := ["Analyze available information",
      "Provide relevant insights", "Suggest specific actions",
      "Offer additional assistance"],
    parameters := none }

/-- One iteration of `applyEnvironmentalFactors`' loop : a `{factor,
weight}` entry with a truthy weight scales the confidence, any other entry
(a bare string, or a zero weight) is skipped. -/
def envStep (r : Reasoning) (kv : String × EnvVal) : Reasoning :=
  match kv.2 with
  | .fw factor weight =>
    if weight ≠ 0 then
      { r with confidence := r.confidence * weight,
               explanation := r.explanation ++ "Considering " ++
                 factor ++ " factor. " }
    else r
  | .str _ => r

/-- `applyEnvironmentalFactors(reasoning, context)` : multiply confidence
by every factor whose `weight` field is truthy, in insertion order, then
clamp to `[0.1, 1.0]`. -/
def applyEnvironmentalFactors (reasoning : Reasoning)
    (context : ExtractedContext) : Reasoning :=
  let reasoning := context.environmental_factors.foldl envStep reasoning
  { reasoning with
      confidence := min 1 (max 0.1 reasoning.confidence) }

/-- `reasonAboutQuery(intent, context)` : dispatch on the primary intent
type, then apply environmental factors. -/
def reasonAboutQuery (intent : IntentResult) (context : ExtractedContext) :
    Reasoning :=
  let reasoning :=
    match intent.primary.type with
    | "assignment" => reasonAboutAssignment context
    | "performance" => reasonAboutPerformance
    | "analytics" => reasonAboutAnalytics
    | "learning" => reasonAboutLearning
    | _ => reasonAboutGeneral
  applyEnvironmentalFactors reasoning context

/-- One stored interaction `{timestamp, query, intent, result_type,
confidence}`. -/
structure InteractionRecord where
  timestamp : String
  query : String
  intent : String
  result_type : String
  confidence : ℚ
  deriving Repr, DecidableEq

/-- The per-token pattern map : word ↦ list of `(intent, timestamp)`,
insertion-ordered as a JS `Map`. -/
def PatternMap := List (String × List (String × String))

instance : DecidableEq PatternMap := by
  unfold PatternMap
  infer_instance

/-- `this.learningData` : interactions buffer, pattern map and preference
map (preferences are only ever read, so their value type is abstract). -/
structure LearningData where
  interactions : List InteractionRecord
  patterns : PatternMap
  preferences : List (String × String)

/-- The combined effect of
`if (!patterns.has(w)) patterns.set(w, []); patterns.get(w).push(e)` :
append to the existing key's list, or append a fresh singleton key. -/
def patPush (m : PatternMap) (k : String) (e : String × String) :
    PatternMap :=
  match m with
  | [] => [(k, [e])]
  | kv :: rest =>
    if kv.1 = k then (kv.1, kv.2 ++ [e]) :: rest else kv :: patPush rest k e

/-- `learnFromInteraction(query, intent, result)`.  `intentType` and
`intentConfidence` stand for `intent.primary.type` / `.confidence`,
`resultType` for `result.type` and `now` for `new Date().toISOString()`. -/
def learnFromInteraction (st : LearningData) (query : String)
    (intentType : String) (intentConfidence : ℚ) (resultType : String)
    (now : String) : LearningData :=
  let interactions := st.interactions ++
    [{ timestamp := now, query := query, intent := intentType,
       result_type := resultType, confidence := intentConfidence }]
  let queryWords := splitOnPred Char.isWhitespace (strLower query).toList
  let patterns :=
    queryWords.foldl
      (fun m word =>
        if word.length > 3 then patPush m word (intentType, now) else m)
      st.patterns
  let interactions :=
    if interactions.length > 1000 then
      interactions.drop (interactions.length - 800)
    else interactions
  { interactions := interactions, patterns := patterns,
    preferences := st.preferences }

/-- `getLearningStatus()` : the two counts the claims read
(`total_interactions`, `learned_patterns`). -/
def getLearningStatus (st : LearningData) : ℕ × ℕ :=
  (st.interactions.length, st.patterns.length)

/-- The empty learning store of the constructor. -/
def initialLearningData : LearningData :=
  { interactions := [], patterns := [], preferences := [] }

/-- Outcome of `handleNaturalLanguageQuery` toward the HTTP caller :
either a 200 payload or a 400 `{error, ai_suggestion}` object. -/
inductive HandlerOutcome (α : Type) where
  | ok (payload : α)
  | err (error : String) (ai_suggestion : String)
  deriving Repr, DecidableEq

/-- `handleNaturalLanguageQuery(req, res, userContext)` body logic.
`parseResult` models `JSON.parse(body)` followed by the destructuring of
the `query` field : `.error msg` is a parse failure with message `msg`,
`.ok none` a body without a `query` field and `.ok (some q)` a body with
it.  `process` is the (total) continuation `processNaturalLanguageQuery`;
the catch-all converts any failure into the 400 shape instead of letting
it escape. -/
def handleNaturalLanguageQuery (process : String → α)
    (parseResult : Except String (Option String)) : HandlerOutcome α :=
  let suggestion :=
    "Please provide a natural language query about worker assignments"
  match parseResult with
  | .error msg => .err ("Invalid query format: " ++ msg) suggestion
  | .ok queryField =>
    match queryField with
    | none => .err "Invalid query format: Query field is required" suggestion
    | some query =>
      if query = "" then
        .err "Invalid query format: Query field is required" suggestion
      else .ok (process query)

/-- The `confidence` field of the response envelope built by
`processNaturalLanguageQuery(query, context)` with no supplied context :
it is exactly the reasoning confidence after environmental adjustment. -/
def processNaturalLanguageQueryConfidence (rnd : ℕ → ℚ) (query : String) :
    ℚ :=
  let intent := analyzeIntent rnd query
  let extractedContext := extractContextFromQuery query
  (reasonAboutQuery intent extractedContext).confidence

/-! Helper definitions used to state and prove the properties below. -/

/-- The product of the truthy environmental-factor weights, in insertion
order: the net scaling that `applyEnvironmentalFactors` applies before
clamping. -/
def envWeightProduct : List (String × EnvVal) → ℚ
  | [] => 1
  | kv :: rest =>
    (match kv.2 with
     | .fw _ w => if w ≠ 0 then w else 1
     | .str _ => 1) * envWeightProduct rest

/-- The length recurrence of the interaction buffer across one
`learnFromInteraction` call. -/
def stepLen (m : ℕ) : ℕ :=
  if m + 1 > 1000 then 800 else m + 1

/-- Lookup of one token's pattern list. -/
def patLookup (m : PatternMap) (k : String) : Option (List (String × String)) :=
  (m.find? (fun kv => kv.1 = k)).map (·.2)

/-- `m'` extends `m` : every token's recorded pattern list survives as a
prefix of its new list (nothing is removed or truncated). -/
def PatExtends (m m' : PatternMap) : Prop :=
  ∀ k v, patLookup m k = some v → ∃ w, patLookup m' k = some (v ++ w)

/-- The scenario query of the specification. -/
def q7 : String := "Who should work on Machine 1 for an urgent precision job?"

/-- The context extracted from the query "urgent job" : urgency is high
and `requirements.complexity` is absent. -/
def ctxUrgent : ExtractedContext := extractContextFromQuery "urgent job"

/-- A query that matches two different intent types (urgency and quality)
and no others, exposing the random ranking. -/
def qTwoIntents : String := "urgent precision job"

/-- The assignment candidate that `analyzeIntent` builds on `q7` : its
confidence consumes the first random draw. -/
def candA (rnd : ℕ → ℚ) : IntentCand :=
  { type := "assignment", confidence := 0.8 + rnd 0 * 0.2,
    matched_pattern := "/who.*should.*work/i" }

/-- The urgency candidate `analyzeIntent` builds on `q7` (second draw). -/
def candU (rnd : ℕ → ℚ) : IntentCand :=
  { type := "urgency", confidence := 0.8 + rnd 1 * 0.2,
    matched_pattern := "/urgent/i" }

/-- The quality candidate `analyzeIntent` builds on `q7` (third draw). -/
def candQ (rnd : ℕ → ℚ) : IntentCand :=
  { type := "quality", confidence := 0.8 + rnd 2 * 0.2,
    matched_pattern := "/precision/i" }

/-- The context that `extractContextFromQuery` derives from `q7`. -/
def ctx7 : ExtractedContext :=
  { environmental_factors := [("urgency", .str "high")],
    requirements :=
      { machineId := some 1, complexity := some "critical",
        timeConstraint := some "urgent", qualityFocus := some "high" } }

/-- A degenerate `Math.random()` stream : every draw is `0`. -/
def rndZero : ℕ → ℚ := fun _ => 0

/-- A `Math.random()` stream whose second draw is `1/2` and the rest `0`. -/
def rndSecond : ℕ → ℚ := fun n => if n = 1 then 1 / 2 else 0

/-- A concrete external predictor used to witness the alternative-worker
properties: complexity level `i` on any machine maps to worker `wi`. -/
def predFix : ℕ → ℕ → Prediction :=
  fun _ i => { recommendedWorker := "w" ++ toString i, estimatedTime := i,
               confidence := 1, avgQuality := 90 }

/-- A concrete base prediction used by witnesses. -/
def baseFix : Prediction :=
  { recommendedWorker := "w0", estimatedTime := 10, confidence := 1 / 2,
    avgQuality := 90 }

/-- The first alternative that `generateAlternatives predFix baseFix 1 3`
produces, used by the corresponding witness. -/
def altFix : Alternative :=
  { worker := "w1", complexity_adjusted := 1, estimated_time := 1,
    reason := "Faster but less thorough" }

/-- A concrete reasoning result used by witnesses. -/
def reasFix : Reasoning :=
  { approach := "intelligent_worker_assignment", confidence := 1 / 2,
    explanation := "urgent task", suggestions := [], action_plan := [],
    parameters := some { machineId := 1, complexity := 3 } }

/-- A concrete learning store with one learned token, used by witnesses. -/
def stFix : LearningData :=
  { interactions := [],
    patterns := [("machine", [("assignment", "t0")])],
    preferences := [("style", "detailed")] }

/-! Theorems. -/

/-- C2: for every prediction and reasoning result, `assessRisk` yields
level "low" iff zero of the three risk factors hold, "medium" iff exactly
one, "high" iff at least two; the factor count is the number of the three
conditions (confidence < 0.7, estimatedTime > 30, urgency mentioned with
estimatedTime > 20) that are present, so the level is a pure function of
the count of collected factor strings. -/
theorem assessRisk_level_count (p : Prediction) (r : Reasoning) :
    ((assessRisk p r).level = "low" ↔ (assessRisk p r).factors.length = 0) ∧
    ((assessRisk p r).level = "medium" ↔
      (assessRisk p r).factors.length = 1) ∧
    ((assessRisk p r).level = "high" ↔
      2 ≤ (assessRisk p r).factors.length) ∧
    (assessRisk p r).factors.length =
      (if p.confidence < 0.7 then 1 else 0) +
      (if p.estimatedTime > 30 then 1 else 0) +
      (if strIncludes r.explanation "urgent" ∧ p.estimatedTime > 20
        then 1 else 0) := by
  unfold assessRisk
  split_ifs <;> simp_all

/-- Invariant of `generateAlternatives`' loop : every accumulated entry
has a worker different from the primary and the fast/thorough annotation
matched to its complexity level. -/
lemma altStep_fold_invariant (predict : ℕ → ℕ → Prediction)
    (base : Prediction) (m c : ℕ) :
    ∀ (is : List ℕ) (acc : List Alternative),
      (∀ a ∈ acc, a.worker ≠ base.recommendedWorker ∧
        (a.complexity_adjusted < c → a.reason = "Faster but less thorough") ∧
        (c < a.complexity_adjusted → a.reason = "More thorough but slower"))
      → ∀ a ∈ is.foldl (altStep predict base m c) acc,
          a.worker ≠ base.recommendedWorker ∧
          (a.complexity_adjusted < c →
            a.reason = "Faster but less thorough") ∧
          (c < a.complexity_adjusted →
            a.reason = "More thorough but slower") := by
  intro is
  induction is with
  | nil => intro acc h; simpa using h
  | cons i is ih =>
    intro acc h
    simp only [List.foldl_cons]
    apply ih
    intro a ha
    simp only [altStep] at ha
    split_ifs at ha with hne hw hlt
    · rcases List.mem_append.mp ha with hmem | hmem
      · exact h a hmem
      · simp only [List.mem_singleton] at hmem
        subst hmem
        exact ⟨hw, fun _ => rfl,
          fun hgt => absurd (show c < i from hgt) (by omega)⟩
    · rcases List.mem_append.mp ha with hmem | hmem
      · exact h a hmem
      · simp only [List.mem_singleton] at hmem
        subst hmem
        exact ⟨hw, fun hlt2 => absurd hlt2 hlt, fun _ => rfl⟩
    · exact h a ha
    · exact h a ha

/-- C3: for every predictor, base prediction and chosen complexity, the
alternatives list has length at most 2, contains no entry whose worker
equals the primary recommended worker, and each entry is annotated
"Faster but less thorough" when its complexity level is below the chosen
one and "More thorough but slower" when above. -/
theorem generateAlternatives_spec (predict : ℕ → ℕ → Prediction)
    (base : Prediction) (m c : ℕ) :
    (generateAlternatives predict base m c).length ≤ 2 ∧
    ∀ a ∈ generateAlternatives predict base m c,
      a.worker ≠ base.recommendedWorker ∧
      (a.complexity_adjusted < c → a.reason = "Faster but less thorough") ∧
      (c < a.complexity_adjusted → a.reason = "More thorough but slower") := by
  constructor
  · simp [generateAlternatives, List.length_take]
  · intro a ha
    have ha' : a ∈ (List.range' 1 5).foldl
        (altStep predict base m c) [] := by
      unfold generateAlternatives at ha
      exact List.mem_of_mem_take ha
    exact altStep_fold_invariant predict base m c (List.range' 1 5) []
      (by intro a h; simp at h) a ha'

/-- Witness for C3 at the concrete predictor `predFix`, base `baseFix`,
machine 1, complexity 3 : the first alternative (worker "w1", level 1) is
in the list, differs from the primary worker and carries the "faster"
annotation. -/
theorem generateAlternatives_spec_witness :
    altFix ∈ generateAlternatives predFix baseFix 1 3 ∧
    altFix.worker ≠ baseFix.recommendedWorker ∧
    altFix.reason = "Faster but less thorough" := by
  have hmem : altFix ∈ generateAlternatives predFix baseFix 1 3 := by decide
  have h := (generateAlternatives_spec predFix baseFix 1 3).2 _ hmem
  exact ⟨hmem, h.1, h.2.1 (by decide)⟩

/-- C4: for confidences in `[0,1]`, `calculateContextualScore` is exactly
`prediction.confidence*100 * reasoning.confidence`, plus 10 when the
explanation mentions "urgent" and `estimatedTime < 20`, plus 15 when it
mentions "quality" and `avgQuality > 85`, clamped above at 100; the result
lies in `[0, 100]`. -/
theorem calculateContextualScore_spec (p : Prediction) (r : Reasoning)
    (h1 : 0 ≤ p.confidence) (h2 : p.confidence ≤ 1)
    (h3 : 0 ≤ r.confidence) (h4 : r.confidence ≤ 1) :
    calculateContextualScore p r =
      min 100 (p.confidence * 100 * r.confidence +
        (if strIncludes r.explanation "urgent" ∧ p.estimatedTime < 20
          then 10 else 0) +
        (if strIncludes r.explanation "quality" ∧ p.avgQuality > 85
          then 15 else 0)) ∧
    0 ≤ calculateContextualScore p r ∧
    calculateContextualScore p r ≤ 100 := by
  have key : calculateContextualScore p r =
      min 100 (p.confidence * 100 * r.confidence +
        (if strIncludes r.explanation "urgent" ∧ p.estimatedTime < 20
          then 10 else 0) +
        (if strIncludes r.explanation "quality" ∧ p.avgQuality > 85
          then 15 else 0)) := by
    unfold calculateContextualScore
    split_ifs <;> ring_nf
  refine ⟨key, ?_, ?_⟩
  · rw [key]
    have hbase : (0 : ℚ) ≤ p.confidence * 100 * r.confidence := by
      have := mul_nonneg (mul_nonneg h1 (by norm_num : (0:ℚ) ≤ 100)) h3
      linarith
    refine le_min (by norm_num) ?_
    split_ifs <;> linarith
  · rw [key]
    exact min_le_left _ _

/-- Witness for C4 at `baseFix`/`reasFix` : the hypotheses hold and the
score formula and bounds follow. -/
theorem calculateContextualScore_spec_witness :
    (0 ≤ baseFix.confidence ∧ baseFix.confidence ≤ 1 ∧
      0 ≤ reasFix.confidence ∧ reasFix.confidence ≤ 1) ∧
    (0 ≤ calculateContextualScore baseFix reasFix ∧
      calculateContextualScore baseFix reasFix ≤ 100) := by
  have h := calculateContextualScore_spec baseFix reasFix (by norm_num [baseFix])
    (by norm_num [baseFix]) (by norm_num [reasFix]) (by norm_num [reasFix])
  exact ⟨⟨by norm_num [baseFix], by norm_num [baseFix],
    by norm_num [reasFix], by norm_num [reasFix]⟩, h.2⟩

/-- The factor fold scales the confidence by exactly the product of the
truthy weights, in insertion order. -/
lemma envStep_fold_confidence (env : List (String × EnvVal)) :
    ∀ r : Reasoning,
      (env.foldl envStep r).confidence =
        r.confidence * envWeightProduct env := by
  induction env with
  | nil => intro r; simp [envWeightProduct]
  | cons kv rest ih =>
    intro r
    simp only [List.foldl_cons]
    rw [ih]
    rcases kv with ⟨k, v⟩
    cases v with
    | str s =>
      have h1 : envStep r (k, .str s) = r := rfl
      have h2 : envWeightProduct ((k, EnvVal.str s) :: rest) =
          1 * envWeightProduct rest := rfl
      rw [h1, h2]; ring
    | fw f w =>
      have h2 : envWeightProduct ((k, EnvVal.fw f w) :: rest) =
          (if w ≠ 0 then w else 1) * envWeightProduct rest := rfl
      rw [h2]
      by_cases hw : w ≠ 0
      · have h1 : envStep r (k, .fw f w) =
            { r with confidence := r.confidence * w,
                     explanation := r.explanation ++ "Considering " ++
                       f ++ " factor. " } := by
          simp [envStep, hw]
        rw [h1, if_pos hw]
        show r.confidence * w * envWeightProduct rest =
          r.confidence * (w * envWeightProduct rest)
        ring
      · have h1 : envStep r (k, .fw f w) = r := by simp [envStep, hw]
        rw [h1, if_neg hw]
        ring

/-- C5: after `applyEnvironmentalFactors` multiplies the confidence by the
weight of every environmental factor carrying a truthy weight (in
insertion order) and clamps, the confidence lies in `[0.1, 1.0]`; the
confidence produced by `reasonAboutQuery`, which is what the response
envelope of `processNaturalLanguageQuery` reports, is therefore always in
`[0, 1]`. -/
theorem applyEnvironmentalFactors_bounds (r : Reasoning)
    (ctx : ExtractedContext) :
    ((applyEnvironmentalFactors r ctx).confidence =
      min 1 (max 0.1 (r.confidence *
        envWeightProduct ctx.environmental_factors))) ∧
    1 / 10 ≤ (applyEnvironmentalFactors r ctx).confidence ∧
    (applyEnvironmentalFactors r ctx).confidence ≤ 1 ∧
    (∀ intent : IntentResult,
      0 ≤ (reasonAboutQuery intent ctx).confidence ∧
      (reasonAboutQuery intent ctx).confidence ≤ 1) ∧
    (∀ (rnd : ℕ → ℚ) (query : String),
      0 ≤ processNaturalLanguageQueryConfidence rnd query ∧
      processNaturalLanguageQueryConfidence rnd query ≤ 1) := by
  have hconf : ∀ (r' : Reasoning) (ctx' : ExtractedContext),
      (applyEnvironmentalFactors r' ctx').confidence =
        min 1 (max 0.1 (r'.confidence *
          envWeightProduct ctx'.environmental_factors)) := by
    intro r' ctx'
    unfold applyEnvironmentalFactors
    simp only
    rw [envStep_fold_confidence]
  have hbounds : ∀ (r' : Reasoning) (ctx' : ExtractedContext),
      1 / 10 ≤ (applyEnvironmentalFactors r' ctx').confidence ∧
      (applyEnvironmentalFactors r' ctx').confidence ≤ 1 := by
    intro r' ctx'
    rw [hconf r' ctx']
    constructor
    · refine le_min (by norm_num) ?_
      refine le_trans (by norm_num) (le_max_left _ _)
    · exact min_le_left _ _
  refine ⟨hconf r ctx, (hbounds r ctx).1, (hbounds r ctx).2, ?_, ?_⟩
  · intro intent
    unfold reasonAboutQuery
    simp only
    constructor
    · exact le_trans (by norm_num) (hbounds _ ctx).1
    · exact (hbounds _ ctx).2
  · intro rnd query
    unfold processNaturalLanguageQueryConfidence reasonAboutQuery
    simp only
    constructor
    · exact le_trans (by norm_num) (hbounds _ _).1
    · exact (hbounds _ _).2

/-- C6: on a context whose `requirements.complexity` is absent and whose
environmental urgency is high, the assignment strategy never derives the
complexity via `intelligentComplexityAssessment` (which would return 4 =
3 + 1 for urgency) and never appends the "Assessed complexity" suggestion:
`mapComplexityToNumber` already falls back to the truthy value 3, so the
`!complexity` guard is dead and the parameter stays 3, while the machine
default (3 under urgency) is applied as described.  This contradicts the
claimed derivation. -/
theorem reasonAboutAssignment_complexity_guard_dead :
    ctxUrgent.requirements.complexity = none ∧
    urgencyHigh ctxUrgent = true ∧
    qualityFocusHigh ctxUrgent = false ∧
    intelligentComplexityAssessment ctxUrgent = 4 ∧
    (reasonAboutAssignment ctxUrgent).parameters =
      some { machineId := 3, complexity := 3 } ∧
    (reasonAboutAssignment ctxUrgent).suggestions =
      ["Intelligently selected Machine 3 based on context"] := by
  decide

/-- On the two-intent query, `analyzeIntent` builds exactly the urgency
and quality candidates (in table order) and ranks them; only the ranking
depends on the random draws. -/
lemma analyzeIntent_qTwoIntents (rnd : ℕ → ℚ) :
    analyzeIntent rnd qTwoIntents =
      { primary := (sortDesc
          [{ type := "urgency", confidence := 0.8 + rnd 0 * 0.2,
             matched_pattern := "/urgent/i" },
           { type := "quality", confidence := 0.8 + rnd 1 * 0.2,
             matched_pattern := "/precision/i" }]).headD
          { type := "general_inquiry", confidence := 0.5,
            matched_pattern := "default" },
        secondary := ((sortDesc
          [{ type := "urgency", confidence := 0.8 + rnd 0 * 0.2,
             matched_pattern := "/urgent/i" },
           { type := "quality", confidence := 0.8 + rnd 1 * 0.2,
             matched_pattern := "/precision/i" }]).drop 1).take 2,
        analysis := "Detected 2 potential intent(s)" } := by
  with_unfolding_all rfl

/-- C1: intent classification is not a deterministic function of the
query text: on the query "urgent precision job" (no supplied context) two
in-range `Math.random()` streams — all-zero draws versus a second draw of
1/2 — produce different primary intent types (urgency versus quality), so
two calls on the same query can disagree, contradicting the claimed
determinism. -/
theorem analyzeIntent_random_dependent :
    (∀ n, 0 ≤ rndZero n ∧ rndZero n < 1) ∧
    (∀ n, 0 ≤ rndSecond n ∧ rndSecond n < 1) ∧
    (analyzeIntent rndZero qTwoIntents).primary.type = "urgency" ∧
    (analyzeIntent rndSecond qTwoIntents).primary.type = "quality" ∧
    "urgency" ≠ "quality" := by
  refine ⟨fun n => by norm_num [rndZero], fun n => ?_, ?_, ?_, by decide⟩
  · unfold rndSecond
    split <;> norm_num
  · rw [analyzeIntent_qTwoIntents]
    norm_num [sortDesc, insertDesc, rndZero]
  · rw [analyzeIntent_qTwoIntents]
    norm_num [sortDesc, insertDesc, rndSecond]

/-- On the scenario query, `analyzeIntent` builds exactly the assignment,
urgency and quality candidates (in table order) and ranks them. -/
lemma analyzeIntent_q7 (rnd : ℕ → ℚ) :
    analyzeIntent rnd q7 =
      { primary := (sortDesc [candA rnd, candU rnd, candQ rnd]).headD
          { type := "general_inquiry", confidence := 0.5,
            matched_pattern := "default" },
        secondary :=
          ((sortDesc [candA rnd, candU rnd, candQ rnd]).drop 1).take 2,
        analysis := "Detected 3 potential intent(s)" } := by
  with_unfolding_all rfl

/-- Stable descending sort of three candidates whose head is maximal. -/
lemma sortDesc_three (a b c : IntentCand)
    (hb : ¬ b.confidence > a.confidence)
    (hc : ¬ c.confidence > a.confidence) :
    sortDesc [a, b, c] = a :: insertDesc c [b] := by
  simp [sortDesc, insertDesc, hb, hc]

/-- Dispatch of `reasonAboutQuery` when the primary intent type is
`assignment`. -/
lemma reasonAboutQuery_assignment (intent : IntentResult)
    (ctx : ExtractedContext)
    (h : intent.primary.type = "assignment") :
    reasonAboutQuery intent ctx =
      applyEnvironmentalFactors (reasonAboutAssignment ctx) ctx := by
  unfold reasonAboutQuery
  rw [h]
  rfl

/-- C7 counterexample: on the scenario query with empty supplied context,
the claim fails at the concrete in-range random stream `rndSecond`
(draws 0, 1/2, 0): the primary intent type is "urgency", not
"assignment"; moreover — for every stream — the extracted
`environmental_factors.urgency` entry is the bare string "high", so it
has no `factor` field to be set. -/
theorem pipeline_scenario_claim_fails :
    (∀ n, 0 ≤ rndSecond n ∧ rndSecond n < 1) ∧
    (analyzeIntent rndSecond q7).primary.type = "urgency" ∧
    "urgency" ≠ "assignment" ∧
    extractContextFromQuery q7 = ctx7 ∧
    envGet ctx7.environmental_factors "urgency" =
      some (.str "high") := by
  refine ⟨fun n => ?_, ?_, by decide, by decide, by decide⟩
  · unfold rndSecond
    split <;> norm_num
  · rw [analyzeIntent_q7]
    norm_num [sortDesc, insertDesc, candA, candU, candQ, rndSecond]

/-- C7 amended: on the scenario query with empty supplied context, the
detected candidates are assignment, urgency and quality; the primary
intent is `assignment` whenever the assignment candidate's random draw is
not exceeded by the other two (the other two types appear among the
secondary intents); `requirements.machineId = 1` and
`requirements.qualityFocus = "high"`; `environmental_factors.urgency` is
the bare string "high" (not a `{factor, weight}` object); and the final
reasoning confidence is 1, strictly above the unadjusted base assignment
confidence 0.85. -/
theorem pipeline_scenario_amended (rnd : ℕ → ℚ)
    (h1 : rnd 1 ≤ rnd 0) (h2 : rnd 2 ≤ rnd 0) :
    (analyzeIntent rnd q7).primary.type = "assignment" ∧
    "urgency" ∈ (analyzeIntent rnd q7).secondary.map IntentCand.type ∧
    "quality" ∈ (analyzeIntent rnd q7).secondary.map IntentCand.type ∧
    (extractContextFromQuery q7).requirements.machineId = some 1 ∧
    (extractContextFromQuery q7).requirements.qualityFocus = some "high" ∧
    envGet (extractContextFromQuery q7).environmental_factors "urgency" =
      some (.str "high") ∧
    processNaturalLanguageQueryConfidence rnd q7 = 1 ∧
    (0.85 : ℚ) < 1 := by
  have hb : ¬ (candU rnd).confidence > (candA rnd).confidence := by
    simp only [candA, candU]
    push_neg
    nlinarith [h1]
  have hc : ¬ (candQ rnd).confidence > (candA rnd).confidence := by
    simp only [candA, candQ]
    push_neg
    nlinarith [h2]
  have hsort := sortDesc_three (candA rnd) (candU rnd) (candQ rnd) hb hc
  have hAI := analyzeIntent_q7 rnd
  have hprim : (analyzeIntent rnd q7).primary = candA rnd := by
    rw [hAI]
    simp only [hsort]
    rfl
  have hptype : (analyzeIntent rnd q7).primary.type = "assignment" := by
    rw [hprim]
    rfl
  have hsec : (analyzeIntent rnd q7).secondary =
      (insertDesc (candQ rnd) [candU rnd]).take 2 := by
    rw [hAI]
    simp only [hsort]
    rfl
  have hctx : extractContextFromQuery q7 = ctx7 := by decide
  have hconf : processNaturalLanguageQueryConfidence rnd q7 = 1 := by
    unfold processNaturalLanguageQueryConfidence
    simp only
    rw [reasonAboutQuery_assignment _ _ hptype, hctx]
    have hval : (applyEnvironmentalFactors (reasonAboutAssignment ctx7)
        ctx7).confidence = min 1 (max 0.1 (0.85 + 0.1 + 0.1)) := by
      with_unfolding_all rfl
    rw [hval]
    norm_num
  refine ⟨hptype, ?_, ?_, by rw [hctx]; decide, by rw [hctx]; decide,
    by rw [hctx]; decide, hconf, by norm_num⟩
  · rw [hsec]
    simp only [insertDesc, candU, candQ]
    split <;> simp
  · rw [hsec]
    simp only [insertDesc, candU, candQ]
    split <;> simp

/-- Witness for C7's amended claim at the all-zero draw stream : the two
draw hypotheses hold and the primary intent is assignment with final
confidence 1. -/
theorem pipeline_scenario_amended_witness :
    rndZero 1 ≤ rndZero 0 ∧ rndZero 2 ≤ rndZero 0 ∧
    (analyzeIntent rndZero q7).primary.type = "assignment" ∧
    processNaturalLanguageQueryConfidence rndZero q7 = 1 := by
  have h := pipeline_scenario_amended rndZero (le_refl 0) (le_refl 0)
  exact ⟨le_refl 0, le_refl 0, h.1, h.2.2.2.2.2.2.1⟩

/-- The interaction-buffer length follows the `stepLen` recurrence:
`+1`, trimmed to 800 past 1000. -/
lemma learnFromInteraction_length (st : LearningData) (q it : String)
    (c : ℚ) (rt now : String) :
    (learnFromInteraction st q it c rt now).interactions.length =
      stepLen st.interactions.length := by
  unfold learnFromInteraction stepLen
  simp only [List.length_append, List.length_cons, List.length_nil]
  split_ifs with h
  · simp only [List.length_drop, List.length_append, List.length_cons,
      List.length_nil]
    omega
  · simp

/-- Folding `learnFromInteraction` over a list of queries iterates the
length recurrence. -/
lemma foldl_learn_length (it : String) (c : ℚ) (rt now : String) :
    ∀ (qs : List String) (st : LearningData),
      ((qs.foldl (fun st q => learnFromInteraction st q it c rt now)
        st).interactions.length) =
        stepLen^[qs.length] st.interactions.length := by
  intro qs
  induction qs with
  | nil => intro st; rfl
  | cons q qs ih =>
    intro st
    simp only [List.foldl_cons, List.length_cons]
    rw [ih, learnFromInteraction_length st q it c rt now,
      Function.iterate_succ_apply]

/-- Below the cap the recurrence just increments. -/
lemma stepLen_iterate_below (n : ℕ) :
    ∀ x : ℕ, n + x ≤ 1000 → stepLen^[n] x = x + n := by
  induction n with
  | zero => intro x _; simp
  | succ n ih =>
    intro x hx
    rw [Function.iterate_succ_apply]
    have hstep : stepLen x = x + 1 := by
      unfold stepLen
      split_ifs with h <;> omega
    rw [hstep, ih (x + 1) (by omega)]
    omega

/-- After exactly 1001 steps from an empty buffer the recurrence lands on
800. -/
lemma stepLen_iterate_1001 : stepLen^[1001] 0 = 800 := by
  rw [Function.iterate_succ_apply', stepLen_iterate_below 1000 0 (by omega)]
  unfold stepLen
  norm_num

/-- C8: the interactions buffer never exceeds 1000 entries after the
overflow trim, every call leaves the just-recorded interaction in the
buffer, and any sequence of exactly 1001 recorded interactions starting
from the empty store leaves exactly 800 stored entries. -/
theorem learnFromInteraction_buffer_spec :
    (∀ (st : LearningData) (q it : String) (c : ℚ) (rt now : String),
      (learnFromInteraction st q it c rt now).interactions.length ≤ 1000 ∧
      ({ timestamp := now, query := q, intent := it, result_type := rt,
         confidence := c } : InteractionRecord) ∈
        (learnFromInteraction st q it c rt now).interactions) ∧
    (∀ qs : List String, qs.length = 1001 →
      ((qs.foldl (fun st q =>
          learnFromInteraction st q "assignment" 0.8 "worker_assignment"
            "t") initialLearningData).interactions.length = 800)) := by
  constructor
  · intro st q it c rt now
    constructor
    · rw [learnFromInteraction_length]
      unfold stepLen
      split_ifs with h <;> omega
    · unfold learnFromInteraction
      simp only
      split_ifs with h
      · rw [List.drop_append_of_le_length (by
          simp only [List.length_append, List.length_cons,
            List.length_nil] at h ⊢
          omega)]
        exact List.mem_append_right _ (List.mem_singleton.mpr rfl)
      · exact List.mem_append_right _ (List.mem_singleton.mpr rfl)
  · intro qs hlen
    rw [foldl_learn_length, hlen]
    exact stepLen_iterate_1001

/-- Witness for C8's 1001-interaction scenario : a concrete sequence of
1001 queries has length 1001 and leaves exactly 800 stored entries. -/
theorem learnFromInteraction_buffer_spec_witness :
    (List.replicate 1001 "machine").length = 1001 ∧
    (((List.replicate 1001 "machine").foldl (fun st q =>
        learnFromInteraction st q "assignment" 0.8 "worker_assignment"
          "t") initialLearningData).interactions.length = 800) :=
  ⟨by rw [List.length_replicate],
   learnFromInteraction_buffer_spec.2 _ (by rw [List.length_replicate])⟩

/-- C9: whenever the request body is unparseable, lacks a `query` field,
or carries an empty (falsy) `query`, the natural-language query handler
returns — rather than throws — an error-shaped result made of an error
string and a suggestion string; the handler is a total function, so no
exception crosses the operation boundary. -/
theorem handleNaturalLanguageQuery_error_shape {α : Type}
    (process : String → α) (msg : String) :
    handleNaturalLanguageQuery process (.error msg) =
      .err ("Invalid query format: " ++ msg)
        "Please provide a natural language query about worker assignments" ∧
    handleNaturalLanguageQuery process (.ok none) =
      .err "Invalid query format: Query field is required"
        "Please provide a natural language query about worker assignments" ∧
    handleNaturalLanguageQuery process (.ok (some "")) =
      .err "Invalid query format: Query field is required"
        "Please provide a natural language query about worker assignments" := by
  refine ⟨rfl, rfl, ?_⟩
  simp [handleNaturalLanguageQuery]

/-- `patPush` only grows the map : it appends one entry to an existing
key's list or appends a fresh key at the end. -/
lemma patPush_lookup (m : PatternMap) (k : String) (e : String × String) :
    ∀ k' v, patLookup m k' = some v →
      patLookup (patPush m k e) k' = some v ∨
      patLookup (patPush m k e) k' = some (v ++ [e]) := by
  induction m with
  | nil => intro k' v hv; simp [patLookup] at hv
  | cons kv rest ih =>
    intro k' v hv
    unfold patPush
    by_cases hk : kv.1 = k
    · rw [if_pos hk]
      by_cases hk' : kv.1 = k'
      · have h1 : patLookup (kv :: rest) k' = some kv.2 := by
          unfold patLookup
          rw [List.find?_cons_of_pos _ (by simp [hk'])]
          rfl
        have h2 : patLookup ((kv.1, kv.2 ++ [e]) :: rest) k' =
            some (kv.2 ++ [e]) := by
          unfold patLookup
          rw [List.find?_cons_of_pos _ (by simp [hk'])]
          rfl
        rw [h1] at hv
        right
        rw [h2, Option.some_inj.mp hv]
      · have h1 : patLookup (kv :: rest) k' = patLookup rest k' := by
          unfold patLookup
          rw [List.find?_cons_of_neg _ (by simp [hk'])]
        have h2 : patLookup ((kv.1, kv.2 ++ [e]) :: rest) k' =
            patLookup rest k' := by
          unfold patLookup
          rw [List.find?_cons_of_neg _ (by simp [hk'])]
        rw [h1] at hv
        left
        rw [h2, hv]
    · rw [if_neg hk]
      by_cases hk' : kv.1 = k'
      · have h1 : patLookup (kv :: rest) k' = some kv.2 := by
          unfold patLookup
          rw [List.find?_cons_of_pos _ (by simp [hk'])]
          rfl
        have h2 : patLookup (kv :: patPush rest k e) k' = some kv.2 := by
          unfold patLookup
          rw [List.find?_cons_of_pos _ (by simp [hk'])]
          rfl
        rw [h1] at hv
        left
        rw [h2, hv]
      · have h1 : patLookup (kv :: rest) k' = patLookup rest k' := by
          unfold patLookup
          rw [List.find?_cons_of_neg _ (by simp [hk'])]
        have h2 : patLookup (kv :: patPush rest k e) k' =
            patLookup (patPush rest k e) k' := by
          unfold patLookup
          rw [List.find?_cons_of_neg _ (by simp [hk'])]
        rw [h1] at hv
        rw [h2]
        exact ih k' v hv

/-- `patPush` never shrinks the key count. -/
lemma patPush_length (m : PatternMap) (k : String) (e : String × String) :
    m.length ≤ (patPush m k e).length := by
  induction m with
  | nil => simp [patPush]
  | cons kv rest ih =>
    unfold patPush
    split_ifs <;> simp only [List.length_cons] <;> omega

/-- `patPush` extends the map in the `PatExtends` sense. -/
lemma patPush_extends (m : PatternMap) (k : String) (e : String × String) :
    PatExtends m (patPush m k e) := by
  intro k' v hv
  rcases patPush_lookup m k e k' v hv with h | h
  · exact ⟨[], by simpa using h⟩
  · exact ⟨[e], h⟩

/-- `PatExtends` is reflexive. -/
lemma patExtends_refl (m : PatternMap) : PatExtends m m :=
  fun _ v hv => ⟨[], by simpa using hv⟩

/-- `PatExtends` is transitive. -/
lemma patExtends_trans {a b c : PatternMap} (h1 : PatExtends a b)
    (h2 : PatExtends b c) : PatExtends a c := by
  intro k v hv
  obtain ⟨w1, hw1⟩ := h1 k v hv
  obtain ⟨w2, hw2⟩ := h2 k (v ++ w1) hw1
  exact ⟨w1 ++ w2, by rw [hw2, List.append_assoc]⟩

/-- The per-token pattern pass of `learnFromInteraction` only extends the
map and never shrinks its key count. -/
lemma wordsFold_extends (it now : String) :
    ∀ (ws : List String) (m : PatternMap),
      PatExtends m (ws.foldl (fun m word =>
        if word.length > 3 then patPush m word (it, now) else m) m) ∧
      m.length ≤ (ws.foldl (fun m word =>
        if word.length > 3 then patPush m word (it, now) else m) m).length := by
  intro ws
  induction ws with
  | nil => intro m; exact ⟨patExtends_refl m, le_refl _⟩
  | cons w ws ih =>
    intro m
    simp only [List.foldl_cons]
    by_cases hw : w.length > 3
    · rw [if_pos hw]
      exact ⟨patExtends_trans (patPush_extends m w (it, now))
          (ih (patPush m w (it, now))).1,
        le_trans (patPush_length m w (it, now))
          (ih (patPush m w (it, now))).2⟩
    · rw [if_neg hw]
      exact ih m

/-- One `learnFromInteraction` call never shrinks the pattern-key count. -/
lemma learnFromInteraction_patterns_length (st : LearningData)
    (q it : String) (c : ℚ) (rt now : String) :
    st.patterns.length ≤
      (learnFromInteraction st q it c rt now).patterns.length :=
  (wordsFold_extends it now
    (splitOnPred Char.isWhitespace (strLower q).toList) st.patterns).2

/-- C10: the overflow trim of `learnFromInteraction` touches only the
interactions list: the preferences map is returned unchanged, every
token's recorded pattern list survives as a prefix of its new list
(`PatExtends`), and the learned-pattern count that `getLearningStatus`
reports is monotonically non-decreasing across any sequence of recorded
interactions. -/
theorem learnFromInteraction_frame_spec :
    (∀ (st : LearningData) (q it : String) (c : ℚ) (rt now : String),
      (learnFromInteraction st q it c rt now).preferences =
        st.preferences ∧
      PatExtends st.patterns
        (learnFromInteraction st q it c rt now).patterns ∧
      st.patterns.length ≤
        (learnFromInteraction st q it c rt now).patterns.length) ∧
    (∀ (ops : List (String × String × ℚ × String × String))
        (st : LearningData),
      (getLearningStatus st).2 ≤
        (getLearningStatus (ops.foldl (fun st op =>
          learnFromInteraction st op.1 op.2.1 op.2.2.1 op.2.2.2.1
            op.2.2.2.2) st)).2) := by
  constructor
  · intro st q it c rt now
    exact ⟨rfl,
      (wordsFold_extends it now
        (splitOnPred Char.isWhitespace (strLower q).toList) st.patterns).1,
      learnFromInteraction_patterns_length st q it c rt now⟩
  · intro ops
    induction ops with
    | nil => intro st; exact le_refl _
    | cons op ops ih =>
      intro st
      simp only [List.foldl_cons]
      exact le_trans
        (learnFromInteraction_patterns_length st op.1 op.2.1 op.2.2.1
          op.2.2.2.1 op.2.2.2.2)
        (ih (learnFromInteraction st op.1 op.2.1 op.2.2.1 op.2.2.2.1
          op.2.2.2.2))

/-- Witness for C10 at the one-token store `stFix` : preferences survive
one recording call unchanged and the previously learned token "machine"
still carries its recorded pattern list as a prefix. -/
theorem learnFromInteraction_frame_spec_witness :
    (learnFromInteraction stFix "machine urgent" "assignment" 0.8
      "worker_assignment" "t1").preferences = stFix.preferences ∧
    ∃ w, patLookup (learnFromInteraction stFix "machine urgent"
      "assignment" 0.8 "worker_assignment" "t1").patterns "machine" =
      some ([("assignment", "t0")] ++ w) := by
  have h := learnFromInteraction_frame_spec.1 stFix "machine urgent"
    "assignment" 0.8 "worker_assignment" "t1"
  exact ⟨h.1, h.2.1 "machine" [("assignment", "t0")] (by decide)⟩

end AIWorkerAssignmentMCP
